import Mathlib

/-!
Verification of the probe-and-aggregate engine of the e2e test suite.

The definitions below are a shallow embedding of the TypeScript sources:
`e2e-tests/utils/test-helpers.ts`, `e2e-tests/tests/multi-app-integration.spec.ts`
and `e2e-tests/global-setup.ts`.  Machine integers are modelled as `Nat`/`Int`
(no overflow is relevant at these magnitudes), durations and scores as `ℚ`,
and a fallible network or browser call as an `Except String` value describing
what the external capability did (rejected with a message, or resolved with a
status code and a measured response time).
-/

namespace E2E

/-! ## test-helpers.ts: configuration and thresholds -/

/-- Models the JavaScript expression `v || d` for an optional environment
string: `undefined` (here `none`) and the empty string are falsy and fall
back to the default `d`. -/
def orDefault : Option String → String → String
  | none, d => d
  | some s, d => if s = "" then d else s

/-- `TestConfig` from test-helpers.ts. -/
structure TestConfig where
  blogUrl : String
  apiUrl : String
  uploadUrl : String
  cronUrl : String
deriving DecidableEq, Repr

/-- `DEFAULT_CONFIG` from test-helpers.ts lines 13-18, parameterised by the
process environment (a partial map from variable names to strings). -/
def DEFAULT_CONFIG (env : String → Option String) : TestConfig :=
  { blogUrl := orDefault (env "BLOG_URL") "http://localhost:3000"
    apiUrl := orDefault (env "API_URL") "http://localhost:3000"
    uploadUrl := orDefault (env "UPLOAD_URL") "http://localhost:3000"
    cronUrl := orDefault (env "CRON_URL") "http://localhost:3000" }

/-- `PERFORMANCE_THRESHOLDS` from test-helpers.ts lines 79-84. -/
structure Thresholds where
  LCP : ℚ
  FID : ℚ
  CLS : ℚ
  TTFB : ℚ
deriving DecidableEq, Repr

def PERFORMANCE_THRESHOLDS : Thresholds :=
  { LCP := 2500, FID := 100, CLS := 0.1, TTFB := 600 }

/-! ## test-helpers.ts: waitForCondition

`waitForCondition` (lines 23-38) polls `condition` until it returns true or
the elapsed wall-clock time reaches `timeout`, sleeping `interval` ms between
evaluations.  The embedding makes time explicit: `cond k` is the result of the
`k`-th evaluation of the condition and `delay k` the wall-clock time that
evaluation consumes.  The value is the returned boolean paired with the number
of times the condition was evaluated. -/

def waitAux (cond : Nat → Bool) (delay : Nat → Nat) (timeout : Int)
    (interval : Nat) (hi : 0 < interval) (k elapsed : Nat) : Bool × Nat :=
  if h : (elapsed : Int) < timeout then
    if cond k then (true, 1)
    else
      let r := waitAux cond delay timeout interval hi (k + 1) (elapsed + delay k + interval)
      (r.1, r.2 + 1)
  else (false, 0)
termination_by (timeout - (elapsed : Int)).toNat
decreasing_by omega

/-- The returned boolean of `waitForCondition`. -/
def waitForCondition (cond : Nat → Bool) (delay : Nat → Nat) (timeout : Int)
    (interval : Nat) (hi : 0 < interval) : Bool :=
  (waitAux cond delay timeout interval hi 0 0).1

/-- How many times `waitForCondition` evaluated its condition. -/
def waitEvalCount (cond : Nat → Bool) (delay : Nat → Nat) (timeout : Int)
    (interval : Nat) (hi : 0 < interval) : Nat :=
  (waitAux cond delay timeout interval hi 0 0).2

/-! ## multi-app-integration.spec.ts: per-target accessibility loop

Lines 14-66: for each named application URL the test issues `request.get`,
records `{name, url, status, responseTime, accessible}` on success and, in the
`catch` branch, `{name, url, status: 0, responseTime: 0, accessible: false,
error}` on any thrown or rejected request. -/

structure App where
  name : String
  url : String
deriving DecidableEq, Repr

/-- One record pushed onto `results`. -/
structure AppResult where
  name : String
  url : String
  status : Nat
  responseTime : Nat
  accessible : Bool
  error : Option String
deriving DecidableEq, Repr

/-- One iteration of the probing loop (lines 24-52): the try-branch builds the
success record with `accessible: status >= 200 && status < 400`, the
catch-branch the failure record with status 0 and responseTime 0. -/
def probeStep (app : App) (beh : Except String (Nat × Nat)) : AppResult :=
  match beh with
  | Except.ok (s, rt) =>
      { name := app.name, url := app.url, status := s, responseTime := rt
        accessible := decide (200 ≤ s) && decide (s < 400), error := none }
  | Except.error e =>
      { name := app.name, url := app.url, status := 0, responseTime := 0
        accessible := false, error := some e }

/-- The whole loop over `appUrls`, pushing one record per application; `beh`
gives the behaviour of the network for each application's request. -/
def probeAll (apps : List App) (beh : App → Except String (Nat × Nat)) : List AppResult :=
  apps.foldl (fun results app => results ++ [probeStep app (beh app)]) []

/-- The `appUrls` list built at lines 15-20 from the configuration. -/
def appUrls (cfg : TestConfig) : List App :=
  [⟨"Blog", cfg.blogUrl⟩, ⟨"Express API", cfg.apiUrl⟩,
   ⟨"Image Upload", cfg.uploadUrl⟩, ⟨"Cron Monitor", cfg.cronUrl⟩]

/-! ## multi-app-integration.spec.ts: system-health check

Lines 491-565: each endpoint is tagged `api` or `web`.  For an `api` endpoint
the response status is classified (`status >= 200 && status < 400` increments
`accessibleApps` and `apiEndpoints`, otherwise `failedTests`); for a `web`
endpoint a completed `page.goto` increments `accessibleApps` unconditionally;
any thrown call lands in the catch branch and increments `failedTests`. -/

inductive EndpointType where
  | api
  | web
deriving DecidableEq, Repr

structure Endpoint where
  name : String
  url : String
  type : EndpointType
deriving DecidableEq, Repr

structure HealthState where
  accessibleApps : Nat
  apiEndpoints : Nat
  totalTests : Nat
  failedTests : Nat
  totalTime : Nat
deriving DecidableEq, Repr

def initialHealth : HealthState := ⟨0, 0, 0, 0, 0⟩

/-- One iteration of the health loop (lines 512-543). -/
def healthStep (st : HealthState) (ep : Endpoint) (beh : Except String (Nat × Nat)) :
    HealthState :=
  let st := { st with totalTests := st.totalTests + 1 }
  match ep.type, beh with
  | _, Except.error _ => { st with failedTests := st.failedTests + 1 }
  | EndpointType.api, Except.ok (s, rt) =>
      if 200 ≤ s ∧ s < 400 then
        { st with accessibleApps := st.accessibleApps + 1
                  apiEndpoints := st.apiEndpoints + 1
                  totalTime := st.totalTime + rt }
      else
        { st with failedTests := st.failedTests + 1
                  totalTime := st.totalTime + rt }
  | EndpointType.web, Except.ok (_, rt) =>
      { st with accessibleApps := st.accessibleApps + 1
                totalTime := st.totalTime + rt }

/-- The health loop folded over endpoint/behaviour pairs. -/
def runHealth (items : List (Endpoint × Except String (Nat × Nat))) : HealthState :=
  items.foldl (fun st it => healthStep st it.1 it.2) initialHealth

/-- `healthScore` at lines 560-562: `(accessibleApps / testEndpoints.length) * 100`. -/
def healthScore (items : List (Endpoint × Except String (Nat × Nat))) : ℚ :=
  (((runHealth items).accessibleApps : ℚ) / (items.length : ℚ)) * 100

/-- `errorRate` at line 546: `(failedTests / totalTests) * 100`. -/
def errorRate (items : List (Endpoint × Except String (Nat × Nat))) : ℚ :=
  (((runHealth items).failedTests : ℚ) / (((runHealth items).totalTests : ℚ))) * 100

/-- Whether one endpoint/behaviour pair is counted accessible by `healthStep`. -/
def countsAccessible (it : Endpoint × Except String (Nat × Nat)) : Bool :=
  match it.1.type, it.2 with
  | _, Except.error _ => false
  | EndpointType.api, Except.ok (s, _) => decide (200 ≤ s) && decide (s < 400)
  | EndpointType.web, Except.ok _ => true

/-! ## multi-app-integration.spec.ts: layout-shift accumulation

Lines 103-112 (and again at blog Core Web Vitals measurement): the observer
callback runs `if (!entry.hadRecentInput) clsValue += entry.value` over the
reported layout-shift entries, starting from `clsValue = 0`. -/

structure LayoutShiftEntry where
  value : ℚ
  hadRecentInput : Bool
deriving DecidableEq, Repr

/-- The accumulated `clsValue` over the sequence of layout-shift entries that
the browser reports before the observation window elapses. -/
def clsOf (entries : List LayoutShiftEntry) : ℚ :=
  entries.foldl (fun clsValue e => if e.hadRecentInput then clsValue else clsValue + e.value) 0

/-- The LCP threshold assertion at lines 132-134:
`if (metricsData.lcp && metricsData.lcp > 0) expect(lcp).toBeLessThan(LCP)`;
a missing, zero (falsy) or non-positive LCP skips the assertion. -/
def lcpAssertionPasses (lcp : Option ℚ) (threshold : ℚ) : Bool :=
  match lcp with
  | none => true
  | some v => if v ≠ 0 ∧ 0 < v then decide (v < threshold) else true

/-! ## The aggregator of the specification

The engine's `probe`, `evaluate` and `summarize` are described by the spec
(sections 3, 4.1 and 4.3) as the abstraction of the per-test logic embedded
above; they do not appear as standalone functions under `src/`.  They are
modelled here from the spec's words and settled against that model. -/

/-- `Observation.outcome` from spec section 3. -/
inductive Outcome where
  | SUCCESS
  | HTTP_ERROR
  | TRANSPORT_ERROR
  | TIMEOUT
deriving DecidableEq, Repr

/-- `RenderMetrics` from spec section 3: each signal may never fire within the
observation window, so each field is optional. -/
structure RenderMetrics where
  largestContentfulPaintMs : Option ℚ
  firstContentfulPaintMs : Option ℚ
  cumulativeLayoutShift : Option ℚ
deriving DecidableEq, Repr

/-- `Observation` from spec section 3 (the target itself is kept outside the
record; `attemptedAt`, `contentType` and `bodySize` play no role in the
aggregation policy). -/
structure Observation where
  outcome : Outcome
  statusCode : Option Nat
  latencyMs : Option ℚ
  renderMetrics : Option RenderMetrics
deriving DecidableEq, Repr

/-- The threshold policy consumed by `evaluate` (spec sections 2 and 4.3). -/
structure Policy where
  latencyCeiling : ℚ
  lcpCeiling : ℚ
  clsCeiling : ℚ
deriving DecidableEq, Repr

/-- `HealthVerdict` from spec section 3 (reasons kept as a list of strings). -/
structure HealthVerdict where
  passed : Bool
  reasons : List String
deriving DecidableEq, Repr

def isSuccessObs (o : Observation) : Bool := o.outcome = Outcome.SUCCESS

/-- Of two observations, the one with the smaller recorded latency. -/
def betterObs (a b : Observation) : Observation :=
  if b.latencyMs.getD 0 < a.latencyMs.getD 0 then b else a

/-- The best successful observation: among the observations with
`outcome = SUCCESS`, the one with minimal latency (spec section 4.3
tie-break rule), or none when no observation succeeded. -/
def bestSuccess (obs : List Observation) : Option Observation :=
  match obs.filter isSuccessObs with
  | [] => none
  | o :: rest => some (rest.foldl betterObs o)

/-- Check 2 of spec section 4.3: a recorded latency of the best successful
observation must not exceed the latency ceiling. -/
def checkLatency (p : Policy) (b : Observation) : Bool :=
  match b.latencyMs with
  | none => true
  | some l => l ≤ p.latencyCeiling

/-- Check 3 of spec section 4.3: a present LCP must not exceed the LCP ceiling. -/
def checkLcp (p : Policy) (b : Observation) : Bool :=
  match b.renderMetrics with
  | none => true
  | some rm =>
      match rm.largestContentfulPaintMs with
      | none => true
      | some v => v ≤ p.lcpCeiling

/-- Check 4 of spec section 4.3: a present CLS must not exceed the CLS ceiling. -/
def checkCls (p : Policy) (b : Observation) : Bool :=
  match b.renderMetrics with
  | none => true
  | some rm =>
      match rm.cumulativeLayoutShift with
      | none => true
      | some v => v ≤ p.clsCeiling

/-- Modelled from the spec: `evaluate(target, observations, policy)` of
section 4.3 is not a standalone function under `src/` (the tests inline its
checks).  Rule 1 requires at least one successful observation; rules 2-4 run
the threshold checks on the best successful observation; every violated check
appends its name to `reasons`, and `passed` holds exactly when no reason was
recorded. -/
def evaluate (obs : List Observation) (p : Policy) : HealthVerdict :=
  match bestSuccess obs with
  | none => { passed := false, reasons := ["no successful observation"] }
  | some b =>
      let reasons :=
        (if checkLatency p b then [] else ["latency above ceiling"]) ++
        (if checkLcp p b then [] else ["LCP above ceiling"]) ++
        (if checkCls p b then [] else ["CLS above ceiling"])
      { passed := reasons.isEmpty, reasons := reasons }

/-- `HealthReport` from spec section 3, restricted to the fields the claims
are about. -/
structure HealthReport where
  overallScore : ℚ
  passedCount : Nat
  totalCount : Nat
deriving DecidableEq, Repr

/-- The counting loop of the reduction: one pass over the verdict mapping,
incrementing the passed counter and the total counter (the same shape as the
health loop at multi-app-integration.spec.ts lines 508-547). -/
def summarizeCounts (verdicts : List (String × HealthVerdict)) : Nat × Nat :=
  verdicts.foldl
    (fun acc v => ((if v.2.passed then acc.1 + 1 else acc.1), acc.2 + 1)) (0, 0)

/-- Modelled from the spec: `summarize(verdicts)` of sections 3 and 4.3 is not
a standalone function under `src/` (the tests only compute the analogous
`healthScore`); `overallScore` is the fraction of passing verdicts, computed
by the counting loop above. -/
def summarize (verdicts : List (String × HealthVerdict)) : HealthReport :=
  { overallScore := ((summarizeCounts verdicts).1 : ℚ) / ((summarizeCounts verdicts).2 : ℚ)
    passedCount := (summarizeCounts verdicts).1
    totalCount := (summarizeCounts verdicts).2 }

/-- Modelled from the spec: the outcome classification of `probe(target,
timeout)` of section 4.1 is not a standalone function under `src/`.  The
response either arrives at `arrivalMs` (with a status classified as in the
accessibility check) or not within the deadline; following the deadline
comparison of `waitForCondition` (test-helpers.ts line 30), the probe keeps
waiting only while the elapsed time is strictly below `timeout`, so an
arrival not strictly below `timeout` is a `TIMEOUT`. -/
def probeSpec (arrivalMs : Nat) (status : Nat) (timeout : Nat) : Outcome :=
  if arrivalMs < timeout then
    if 200 ≤ status ∧ status < 400 then Outcome.SUCCESS else Outcome.HTTP_ERROR
  else Outcome.TIMEOUT

/-! ## Helper lemmas -/

/-- A fold that pushes one element per input is a map. -/
theorem foldl_push_eq_map {α β : Type} (f : α → β) :
    ∀ (l : List α) (init : List β),
      l.foldl (fun r a => r ++ [f a]) init = init ++ l.map f := by
  intro l
  induction l with
  | nil => intro init; simp
  | cons a t ih => intro init; simp [List.foldl_cons, ih]

/-- One health-loop step increments `accessibleApps` exactly when the pair is
counted accessible. -/
theorem healthStep_accessibleApps (st : HealthState) (ep : Endpoint)
    (beh : Except String (Nat × Nat)) :
    (healthStep st ep beh).accessibleApps =
      st.accessibleApps + (if countsAccessible (ep, beh) then 1 else 0) := by
  cases beh with
  | error e => cases hep : ep.type <;> simp [healthStep, countsAccessible, hep]
  | ok v =>
      obtain ⟨s, rt⟩ := v
      cases hep : ep.type
      · by_cases h : 200 ≤ s ∧ s < 400 <;>
          simp [healthStep, countsAccessible, hep, h]
      · simp [healthStep, countsAccessible, hep]

/-- The health loop counts the accessible pairs. -/
theorem runHealth_foldl (l : List (Endpoint × Except String (Nat × Nat))) :
    ∀ st : HealthState,
      (l.foldl (fun st it => healthStep st it.1 it.2) st).accessibleApps =
        st.accessibleApps + l.countP countsAccessible := by
  induction l with
  | nil => intro st; simp
  | cons a t ih =>
      intro st
      obtain ⟨ep, beh⟩ := a
      rw [List.foldl_cons, ih, List.countP_cons, healthStep_accessibleApps]
      by_cases h : countsAccessible (ep, beh) <;> simp [h] <;> omega

/-- `runHealth` counts the accessible pairs. -/
theorem runHealth_accessibleApps (l : List (Endpoint × Except String (Nat × Nat))) :
    (runHealth l).accessibleApps = l.countP countsAccessible := by
  simpa [runHealth, initialHealth] using runHealth_foldl l initialHealth

/-- The counting loop of `summarize` computes the passed count and the length. -/
theorem summarizeCounts_foldl (v : List (String × HealthVerdict)) :
    ∀ acc : Nat × Nat,
      v.foldl (fun acc x => ((if x.2.passed then acc.1 + 1 else acc.1), acc.2 + 1)) acc =
        (acc.1 + v.countP (fun x => x.2.passed), acc.2 + v.length) := by
  induction v with
  | nil => intro acc; simp
  | cons a t ih =>
      intro acc
      rw [List.foldl_cons, ih, List.countP_cons]
      by_cases h : a.2.passed <;> simp [h] <;> omega

theorem summarizeCounts_spec (v : List (String × HealthVerdict)) :
    summarizeCounts v = (v.countP (fun x => x.2.passed), v.length) := by
  simpa [summarizeCounts] using summarizeCounts_foldl v (0, 0)

/-- The layout-shift fold is the sum of the values of the entries without
recent input. -/
theorem clsOf_foldl (l : List LayoutShiftEntry) :
    ∀ init : ℚ,
      l.foldl (fun clsValue e => if e.hadRecentInput then clsValue else clsValue + e.value) init =
        init + ((l.filter fun x => !x.hadRecentInput).map LayoutShiftEntry.value).sum := by
  induction l with
  | nil => intro init; simp
  | cons a t ih =>
      intro init
      by_cases h : a.hadRecentInput <;> simp [h, ih, add_assoc]

/-- When no observation succeeded there is no best successful observation. -/
theorem bestSuccess_eq_none (obs : List Observation)
    (h : ∀ o ∈ obs, o.outcome ≠ Outcome.SUCCESS) : bestSuccess obs = none := by
  have hf : obs.filter isSuccessObs = [] := by
    rw [List.filter_eq_nil_iff]
    intro a ha
    simp [isSuccessObs, h a ha]
  simp [bestSuccess, hf]

/-- A single successful observation is its own best success. -/
theorem bestSuccess_singleton (o : Observation) (h : isSuccessObs o = true) :
    bestSuccess [o] = some o := by
  simp [bestSuccess, h]

/-! ## Claim theorems -/

/-- C1 counterexample: the web-type path of the system-health check marks an
endpoint accessible on a completed navigation with HTTP status 404, although
404 does not lie in [200,400) — so not every classification path of the engine
requires the recorded status to lie in that range. -/
theorem web_health_marks_404_accessible :
    (healthStep initialHealth
        ⟨"API Root", "http://localhost:3000/api/", EndpointType.web⟩
        (Except.ok (404, 7))).accessibleApps = initialHealth.accessibleApps + 1
    ∧ ¬ (200 ≤ 404 ∧ 404 < 400) := by
  exact ⟨rfl, by decide⟩

/-- C1 (amended): the per-target accessibility check marks a target accessible
exactly when the recorded status is in [200,400) — on a caught failure the
recorded status is 0 and the target is never accessible, so the equivalence
holds on every path of that check — and the API-type path of the system-health
check increments `accessibleApps` exactly under the same status condition; the
web-type path instead counts every completed navigation as accessible,
regardless of status, and a thrown call never counts. -/
theorem success_iff_status_in_range (st : HealthState) (ep : Endpoint) (app : App)
    (s rt : Nat) (e : String) :
    ((probeStep app (Except.ok (s, rt))).accessible = true ↔ 200 ≤ s ∧ s < 400)
    ∧ (probeStep app (Except.error e)).accessible = false
    ∧ ((probeStep app (Except.ok (s, rt))).accessible = true ↔
        200 ≤ (probeStep app (Except.ok (s, rt))).status ∧
          (probeStep app (Except.ok (s, rt))).status < 400)
    ∧ (ep.type = EndpointType.api →
        (healthStep st ep (Except.ok (s, rt))).accessibleApps =
          st.accessibleApps + (if 200 ≤ s ∧ s < 400 then 1 else 0))
    ∧ (ep.type = EndpointType.web →
        (healthStep st ep (Except.ok (s, rt))).accessibleApps = st.accessibleApps + 1)
    ∧ (healthStep st ep (Except.error e)).accessibleApps = st.accessibleApps := by
  refine ⟨by simp [probeStep], rfl, by simp [probeStep], ?_, ?_, ?_⟩
  · intro h
    rw [healthStep_accessibleApps]
    by_cases hs : 200 ≤ s ∧ s < 400 <;> simp [countsAccessible, h, hs]
  · intro h
    rw [healthStep_accessibleApps]
    simp [countsAccessible, h]
  · rw [healthStep_accessibleApps]
    cases hep : ep.type <;> simp [countsAccessible, hep]

theorem success_iff_status_in_range_witness :
    ((probeStep ⟨"Blog", "http://localhost:3000"⟩ (Except.ok (200, 5))).accessible = true ↔
      200 ≤ 200 ∧ 200 < 400)
    ∧ (healthStep initialHealth
        ⟨"API Data", "http://localhost:3000/api/data", EndpointType.api⟩
        (Except.ok (200, 5))).accessibleApps =
        initialHealth.accessibleApps + (if 200 ≤ 200 ∧ 200 < 400 then 1 else 0)
    ∧ (healthStep initialHealth
        ⟨"Blog", "http://localhost:3000", EndpointType.web⟩
        (Except.ok (200, 5))).accessibleApps = initialHealth.accessibleApps + 1 := by
  have h₁ := success_iff_status_in_range initialHealth
    ⟨"API Data", "http://localhost:3000/api/data", EndpointType.api⟩
    ⟨"Blog", "http://localhost:3000"⟩ 200 5 "connect ECONNREFUSED"
  have h₂ := success_iff_status_in_range initialHealth
    ⟨"Blog", "http://localhost:3000", EndpointType.web⟩
    ⟨"Blog", "http://localhost:3000"⟩ 200 5 "connect ECONNREFUSED"
  exact ⟨h₁.1, h₁.2.2.2.1 rfl, h₂.2.2.2.2.1 rfl⟩

/-- C3: the probing loop never propagates a failure: for every behaviour of
the network the loop produces exactly one record per target, each record is a
pure function of that target's own behaviour (so one target's failure never
aborts or alters the probing of the others), and a thrown request is converted
into a record that encodes the failure. -/
theorem probe_never_throws (apps : List App) (beh : App → Except String (Nat × Nat))
    (e : String) (app : App) :
    probeAll apps beh = apps.map (fun a => probeStep a (beh a))
    ∧ (probeAll apps beh).length = apps.length
    ∧ (probeStep app (Except.error e)).accessible = false
    ∧ (probeStep app (Except.error e)).error = some e := by
  have h : probeAll apps beh = apps.map (fun a => probeStep a (beh a)) := by
    simpa [probeAll] using foldl_push_eq_map (fun a => probeStep a (beh a)) apps []
  exact ⟨h, by simp [h], rfl, rfl⟩

/-- C5 counterexample: a request that exceeds its timeout rejects, is caught,
and the pushed record carries `responseTime = 0` — not the 30000 ms timeout of
the request. -/
theorem timeout_error_records_zero_latency :
    (probeStep ⟨"Blog", "http://localhost:3000"⟩
        (Except.error "Request timed out after 30000ms")).responseTime = 0
    ∧ (0 : Nat) ≠ 30000 := by
  exact ⟨rfl, by decide⟩

/-- C5 (amended): every caught request failure — a timeout included — is
converted into the fixed failure record with status 0, `responseTime = 0`
(the timeout value is not recorded as the latency), `accessible = false` and
the error message preserved. -/
theorem caught_failure_record (app : App) (e : String) :
    probeStep app (Except.error e) =
      { name := app.name, url := app.url, status := 0, responseTime := 0
        accessible := false, error := some e } := rfl

/-- C6: the accumulated layout-shift value is the running sum of the shift
scores of the entries reported within the window, and an entry attributable to
recent user input contributes nothing to the sum. -/
theorem cls_excludes_recent_input (entries pre post : List LayoutShiftEntry)
    (e : LayoutShiftEntry) (he : e.hadRecentInput = true) :
    clsOf entries = ((entries.filter fun x => !x.hadRecentInput).map LayoutShiftEntry.value).sum
    ∧ clsOf (pre ++ e :: post) = clsOf (pre ++ post) := by
  constructor
  · simpa [clsOf] using clsOf_foldl entries 0
  · unfold clsOf
    rw [clsOf_foldl, clsOf_foldl]
    simp [List.filter_append, he]

theorem cls_excludes_recent_input_witness :
    clsOf [⟨2, false⟩, ⟨5, true⟩, ⟨3, false⟩] =
      (([⟨2, false⟩, ⟨5, true⟩, ⟨3, false⟩].filter
          (fun x => !x.hadRecentInput)).map LayoutShiftEntry.value).sum
    ∧ clsOf ([⟨2, false⟩] ++ ⟨5, true⟩ :: [⟨3, false⟩]) = clsOf ([⟨2, false⟩] ++ [⟨3, false⟩]) :=
  cls_excludes_recent_input [⟨2, false⟩, ⟨5, true⟩, ⟨3, false⟩] [⟨2, false⟩] [⟨3, false⟩]
    ⟨5, true⟩ rfl

/-- C9: with none of BLOG_URL, API_URL, UPLOAD_URL and CRON_URL set, the
default configuration assigns the identical URL to all four named targets:
the four target names are pairwise distinct but the list of target URLs has
duplicates. -/
theorem default_config_single_endpoint (env : String → Option String)
    (hb : env "BLOG_URL" = none) (ha : env "API_URL" = none)
    (hu : env "UPLOAD_URL" = none) (hc : env "CRON_URL" = none) :
    (DEFAULT_CONFIG env).blogUrl = "http://localhost:3000"
    ∧ (DEFAULT_CONFIG env).apiUrl = "http://localhost:3000"
    ∧ (DEFAULT_CONFIG env).uploadUrl = "http://localhost:3000"
    ∧ (DEFAULT_CONFIG env).cronUrl = "http://localhost:3000"
    ∧ ((appUrls (DEFAULT_CONFIG env)).map App.name).Nodup
    ∧ ¬ ((appUrls (DEFAULT_CONFIG env)).map App.url).Nodup := by
  have hcfg : DEFAULT_CONFIG env = ⟨"http://localhost:3000", "http://localhost:3000",
      "http://localhost:3000", "http://localhost:3000"⟩ := by
    simp [DEFAULT_CONFIG, hb, ha, hu, hc, orDefault]
  rw [hcfg]
  refine ⟨rfl, rfl, rfl, rfl, by decide, by decide⟩

/-- C2: the reduction to the overall score is pure and order-independent:
`overallScore` is the number of passing verdicts divided by the number of
verdicts, and permuting the iteration order of the verdict mapping never
changes it; likewise the health score computed by the system-health loop is
the fraction of accessible endpoints (times 100) and is invariant under
permuting the endpoint iteration order. -/
theorem summarize_order_independent (v₁ v₂ : List (String × HealthVerdict))
    (hv : v₁.Perm v₂) (l₁ l₂ : List (Endpoint × Except String (Nat × Nat)))
    (hl : l₁.Perm l₂) :
    (summarize v₁).overallScore = (summarize v₂).overallScore
    ∧ (summarize v₁).overallScore =
        ((v₁.countP (fun x => x.2.passed) : ℚ)) / ((v₁.length : ℚ))
    ∧ healthScore l₁ = healthScore l₂
    ∧ healthScore l₁ = (((l₁.countP countsAccessible : ℚ)) / ((l₁.length : ℚ))) * 100 := by
  have hs : ∀ v : List (String × HealthVerdict), (summarize v).overallScore =
      ((v.countP (fun x => x.2.passed) : ℚ)) / ((v.length : ℚ)) := by
    intro v
    simp [summarize, summarizeCounts_spec]
  have hh : ∀ l : List (Endpoint × Except String (Nat × Nat)), healthScore l =
      (((l.countP countsAccessible : ℚ)) / ((l.length : ℚ))) * 100 := by
    intro l
    simp [healthScore, runHealth_accessibleApps]
  refine ⟨?_, hs v₁, ?_, hh l₁⟩
  · rw [hs, hs, hv.countP_eq, hv.length_eq]
  · rw [hh, hh, hl.countP_eq, hl.length_eq]

theorem summarize_order_independent_witness :
    (summarize [("Blog", ⟨true, []⟩), ("Express API", ⟨false, ["no successful observation"]⟩)]).overallScore =
      (summarize [("Express API", ⟨false, ["no successful observation"]⟩), ("Blog", ⟨true, []⟩)]).overallScore
    ∧ healthScore
        [(⟨"Blog", "http://localhost:3000", EndpointType.web⟩, Except.ok (200, 5)),
         (⟨"API Data", "http://localhost:3000/api/data", EndpointType.api⟩, Except.error "refused")] =
      healthScore
        [(⟨"API Data", "http://localhost:3000/api/data", EndpointType.api⟩, Except.error "refused"),
         (⟨"Blog", "http://localhost:3000", EndpointType.web⟩, Except.ok (200, 5))] := by
  have h := summarize_order_independent
    [("Blog", ⟨true, []⟩), ("Express API", ⟨false, ["no successful observation"]⟩)]
    [("Express API", ⟨false, ["no successful observation"]⟩), ("Blog", ⟨true, []⟩)]
    (List.Perm.swap _ _ _)
    [(⟨"Blog", "http://localhost:3000", EndpointType.web⟩, Except.ok (200, 5)),
     (⟨"API Data", "http://localhost:3000/api/data", EndpointType.api⟩, Except.error "refused")]
    [(⟨"API Data", "http://localhost:3000/api/data", EndpointType.api⟩, Except.error "refused"),
     (⟨"Blog", "http://localhost:3000", EndpointType.web⟩, Except.ok (200, 5))]
    (List.Perm.swap _ _ _)
  exact ⟨h.1, h.2.2.1⟩

/-- C4: a target whose observation sequence is empty or contains no successful
observation always evaluates to a failed verdict with a non-empty reasons set,
whatever latencies or render metrics its non-successful observations carry. -/
theorem no_success_always_fails (obs : List Observation) (p : Policy)
    (h : ∀ o ∈ obs, o.outcome ≠ Outcome.SUCCESS) :
    (evaluate obs p).passed = false ∧ (evaluate obs p).reasons ≠ [] := by
  rw [evaluate, bestSuccess_eq_none obs h]
  exact ⟨rfl, by simp⟩

theorem no_success_always_fails_witness :
    (evaluate
        [⟨Outcome.HTTP_ERROR, some 500, some 1, some ⟨some 1, some 1, some 0⟩⟩,
         ⟨Outcome.TIMEOUT, none, some 30000, none⟩]
        ⟨2500, 2500, 0.1⟩).passed = false
    ∧ (evaluate
        [⟨Outcome.HTTP_ERROR, some 500, some 1, some ⟨some 1, some 1, some 0⟩⟩,
         ⟨Outcome.TIMEOUT, none, some 30000, none⟩]
        ⟨2500, 2500, 0.1⟩).reasons ≠ [] :=
  no_success_always_fails _ _ (by decide)

/-- C7: a PAGE target whose navigation succeeded with HTTP status 200 but
whose measured LCP exceeds the (non-negative) LCP ceiling evaluates to a
failed verdict carrying the LCP-ceiling violation among its reasons, and the
source's own threshold assertion on such an LCP value fails as well: the
successful status does not override the threshold check. -/
theorem lcp_ceiling_overrides_success (p : Policy) (o : Observation)
    (rm : RenderMetrics) (v : ℚ)
    (ho : o.outcome = Outcome.SUCCESS) (hst : o.statusCode = some 200)
    (hrm : o.renderMetrics = some rm) (hv : rm.largestContentfulPaintMs = some v)
    (hgt : p.lcpCeiling < v) (hc : 0 ≤ p.lcpCeiling) :
    (evaluate [o] p).passed = false
    ∧ "LCP above ceiling" ∈ (evaluate [o] p).reasons
    ∧ lcpAssertionPasses (some v) p.lcpCeiling = false := by
  have hsucc : isSuccessObs o = true := by simp [isSuccessObs, ho]
  have hbest := bestSuccess_singleton o hsucc
  have hlcp : checkLcp p o = false := by
    simp only [checkLcp, hrm, hv]
    simpa using not_le.mpr hgt
  have hv0 : 0 < v := lt_of_le_of_lt hc hgt
  refine ⟨?_, ?_, ?_⟩
  · rw [evaluate, hbest]
    simp [hlcp]
  · rw [evaluate, hbest]
    simp [hlcp]
  · simp only [lcpAssertionPasses]
    rw [if_pos ⟨ne_of_gt hv0, hv0⟩]
    simpa using not_lt.mpr (le_of_lt hgt)

theorem lcp_ceiling_overrides_success_witness :
    (evaluate [⟨Outcome.SUCCESS, some 200, some 800, some ⟨some 3200, none, none⟩⟩]
        ⟨2500, PERFORMANCE_THRESHOLDS.LCP, PERFORMANCE_THRESHOLDS.CLS⟩).passed = false
    ∧ "LCP above ceiling" ∈
        (evaluate [⟨Outcome.SUCCESS, some 200, some 800, some ⟨some 3200, none, none⟩⟩]
          ⟨2500, PERFORMANCE_THRESHOLDS.LCP, PERFORMANCE_THRESHOLDS.CLS⟩).reasons
    ∧ lcpAssertionPasses (some 3200) PERFORMANCE_THRESHOLDS.LCP = false :=
  lcp_ceiling_overrides_success
    ⟨2500, PERFORMANCE_THRESHOLDS.LCP, PERFORMANCE_THRESHOLDS.CLS⟩
    ⟨Outcome.SUCCESS, some 200, some 800, some ⟨some 3200, none, none⟩⟩
    ⟨some 3200, none, none⟩ 3200 rfl rfl rfl rfl (by decide) (by decide)

theorem default_config_single_endpoint_witness :
    (DEFAULT_CONFIG (fun _ => none)).blogUrl = "http://localhost:3000"
    ∧ (DEFAULT_CONFIG (fun _ => none)).apiUrl = "http://localhost:3000"
    ∧ (DEFAULT_CONFIG (fun _ => none)).uploadUrl = "http://localhost:3000"
    ∧ (DEFAULT_CONFIG (fun _ => none)).cronUrl = "http://localhost:3000"
    ∧ ((appUrls (DEFAULT_CONFIG (fun _ => none))).map App.name).Nodup
    ∧ ¬ ((appUrls (DEFAULT_CONFIG (fun _ => none))).map App.url).Nodup :=
  default_config_single_endpoint (fun _ => none) rfl rfl rfl rfl

/-- Unfolding equation for one step of the polling loop. -/
theorem waitAux_eq (cond : Nat → Bool) (delay : Nat → Nat) (timeout : Int)
    (interval : Nat) (hi : 0 < interval) (k elapsed : Nat) :
    waitAux cond delay timeout interval hi k elapsed =
      if (elapsed : Int) < timeout then
        if cond k then (true, 1)
        else
          ((waitAux cond delay timeout interval hi (k + 1)
              (elapsed + delay k + interval)).1,
           (waitAux cond delay timeout interval hi (k + 1)
              (elapsed + delay k + interval)).2 + 1)
      else (false, 0) := by
  rw [waitAux]
  split <;> rfl

/-- The number of condition evaluations is bounded by the number of intervals
that fit strictly inside the remaining time, plus one. -/
theorem waitAux_count_le (cond : Nat → Bool) (delay : Nat → Nat) (timeout : Int)
    (interval : Nat) (hi : 0 < interval) :
    ∀ (n k elapsed : Nat), (timeout - (elapsed : Int)).toNat ≤ n →
      (waitAux cond delay timeout interval hi k elapsed).2 ≤
        (timeout - (elapsed : Int)).toNat / interval + 1 := by
  intro n
  induction n with
  | zero =>
      intro k elapsed hle
      rw [waitAux_eq]
      have h : ¬ ((elapsed : Int) < timeout) := by omega
      simp [h]
  | succ n ih =>
      intro k elapsed hle
      rw [waitAux_eq]
      by_cases h : (elapsed : Int) < timeout
      · rw [if_pos h]
        by_cases hck : cond k
        · rw [if_pos hck]
          exact Nat.le_add_left 1 _
        · rw [if_neg hck]
          by_cases hbig : interval ≤ (timeout - (elapsed : Int)).toNat
          · have hrec := ih (k + 1) (elapsed + delay k + interval) (by omega)
            have hsum : (timeout - ((elapsed + delay k + interval : Nat) : Int)).toNat + interval ≤
                (timeout - (elapsed : Int)).toNat := by
              push_cast
              omega
            calc (waitAux cond delay timeout interval hi (k + 1)
                    (elapsed + delay k + interval)).2 + 1
                ≤ ((timeout - ((elapsed + delay k + interval : Nat) : Int)).toNat / interval + 1) + 1 :=
                  Nat.add_le_add_right hrec 1
              _ = ((timeout - ((elapsed + delay k + interval : Nat) : Int)).toNat + interval) / interval + 1 := by
                  rw [Nat.add_div_right _ hi]
              _ ≤ (timeout - (elapsed : Int)).toNat / interval + 1 :=
                  Nat.add_le_add_right (Nat.div_le_div_right hsum) 1
          · have hstop : ¬ (((elapsed + delay k + interval : Nat) : Int) < timeout) := by
              push_cast
              omega
            rw [waitAux_eq, if_neg hstop]
            simp
      · rw [if_neg h]
        simp

/-- The loop returns true only when one of the condition evaluations
returned true. -/
theorem waitAux_true_of_cond (cond : Nat → Bool) (delay : Nat → Nat) (timeout : Int)
    (interval : Nat) (hi : 0 < interval) :
    ∀ (n k elapsed : Nat), (timeout - (elapsed : Int)).toNat ≤ n →
      (waitAux cond delay timeout interval hi k elapsed).1 = true →
      ∃ j, cond j = true := by
  intro n
  induction n with
  | zero =>
      intro k elapsed hle
      rw [waitAux_eq]
      have h : ¬ ((elapsed : Int) < timeout) := by omega
      simp [h]
  | succ n ih =>
      intro k elapsed hle
      rw [waitAux_eq]
      by_cases h : (elapsed : Int) < timeout
      · rw [if_pos h]
        by_cases hck : cond k
        · exact fun _ => ⟨k, hck⟩
        · rw [if_neg hck]
          exact fun ht => ih (k + 1) (elapsed + delay k + interval) (by omega) ht
      · rw [if_neg h]
        simp

/-- C8: with a zero timeout the deadline comparison fails before the first
condition evaluation, so `waitForCondition` reports failure at once without
ever evaluating its condition, and the probe of the specification classifies
every behaviour of the endpoint — whatever the arrival time and status — as a
TIMEOUT, never a SUCCESS. -/
theorem timeout_zero_never_success (arrivalMs status : Nat) (cond : Nat → Bool)
    (delay : Nat → Nat) (interval : Nat) (hi : 0 < interval) :
    probeSpec arrivalMs status 0 = Outcome.TIMEOUT
    ∧ probeSpec arrivalMs status 0 ≠ Outcome.SUCCESS
    ∧ waitForCondition cond delay 0 interval hi = false
    ∧ waitEvalCount cond delay 0 interval hi = 0 := by
  have hw : waitAux cond delay 0 interval hi 0 0 = (false, 0) := by
    rw [waitAux_eq]
    simp
  refine ⟨by simp [probeSpec], by simp [probeSpec], ?_, ?_⟩
  · simp [waitForCondition, hw]
  · simp [waitEvalCount, hw]

theorem timeout_zero_never_success_witness :
    probeSpec 5 200 0 = Outcome.TIMEOUT
    ∧ probeSpec 5 200 0 ≠ Outcome.SUCCESS
    ∧ waitForCondition (fun _ => true) (fun _ => 0) 0 500 (by decide) = false
    ∧ waitEvalCount (fun _ => true) (fun _ => 0) 0 500 (by decide) = 0 :=
  timeout_zero_never_success 5 200 (fun _ => true) (fun _ => 0) 500 (by decide)

/-- C10: for every condition, every duration spent inside the condition,
every timeout and every positive polling interval, the polling loop (a total
function here, hence terminating) evaluates the condition at most
ceil(timeout / interval) + 1 times, returns true only when some evaluation of
the condition returned true, and for a non-positive timeout returns false
without evaluating the condition at all. -/
theorem waitForCondition_terminates_bounded (cond : Nat → Bool) (delay : Nat → Nat)
    (timeout : Int) (interval : Nat) (hi : 0 < interval) :
    waitEvalCount cond delay timeout interval hi ≤
      (timeout.toNat + interval - 1) / interval + 1
    ∧ (waitForCondition cond delay timeout interval hi = true → ∃ j, cond j = true)
    ∧ (timeout ≤ 0 →
        waitForCondition cond delay timeout interval hi = false
        ∧ waitEvalCount cond delay timeout interval hi = 0) := by
  refine ⟨?_, ?_, ?_⟩
  · have h := waitAux_count_le cond delay timeout interval hi
      (timeout - ((0 : Nat) : Int)).toNat 0 0 le_rfl
    have h0 : (timeout - ((0 : Nat) : Int)).toNat = timeout.toNat := by omega
    rw [h0] at h
    refine le_trans h (Nat.add_le_add_right (Nat.div_le_div_right ?_) 1)
    omega
  · intro ht
    exact waitAux_true_of_cond cond delay timeout interval hi
      (timeout - ((0 : Nat) : Int)).toNat 0 0 le_rfl ht
  · intro ht
    have hw : waitAux cond delay timeout interval hi 0 0 = (false, 0) := by
      rw [waitAux_eq, if_neg (show ¬ (((0 : Nat) : Int) < timeout) by omega)]
    exact ⟨by simp [waitForCondition, hw], by simp [waitEvalCount, hw]⟩

theorem waitForCondition_terminates_bounded_witness :
    waitEvalCount (fun _ => false) (fun _ => 0) (-1) 500 (by decide) ≤
      ((-1 : Int).toNat + 500 - 1) / 500 + 1
    ∧ waitForCondition (fun _ => false) (fun _ => 0) (-1) 500 (by decide) = false
    ∧ waitEvalCount (fun _ => false) (fun _ => 0) (-1) 500 (by decide) = 0 := by
  have h := waitForCondition_terminates_bounded (fun _ => false) (fun _ => 0) (-1) 500 (by decide)
  exact ⟨h.1, (h.2.2 (by decide)).1, (h.2.2 (by decide)).2⟩

end E2E
